import Mathlib

/-!
Verification of the nats-fs repository (a NATS-backed HTTP-style file
server and requestor) against its natural-language specification.

Server side (src/server/main.go): the custom response writer `nrw`
streams a response body as NATS messages with windowed flow control.
Client side (src/client/main.go): a requestor publishes one request,
validates the header reply, then drains body chunks, acknowledging
each one, with a printable/binary heuristic on the first chunk.

The embedding models machine integers as Int/Nat (Go `int` values that
are range-relevant, such as strconv.Atoi's 64-bit bounds, carry explicit
range checks), byte slices as `List Nat`, and the external NATS
collaborator's effects (publish outcomes, fresh inbox names) as explicit
parameters and outputs.
-/

namespace NatsFs

/-- Model of a NATS message: subject, reply subject, headers (an ordered
multi-valued association list, as nats.Header preserves Add order per key),
and payload bytes. -/
structure Msg where
  subject : String
  reply : String
  header : List (String × String)
  data : List Nat
deriving Repr, DecidableEq

/-- Accumulate ASCII decimal digits, failing on any non-digit.
Mirrors the digit loop of Go strconv.ParseInt (base 10): only ASCII
'0'..'9' are digits. -/
def parseDigits : Nat → List Char → Option Nat
  | acc, [] => some acc
  | acc, c :: cs =>
    if c.isDigit then parseDigits (acc * 10 + (c.toNat - 48)) cs else none

/-- Largest value of Go's 64-bit int. -/
def int64Max : Int := 9223372036854775807

/-- Model of Go strconv.Atoi: optional leading sign, one or more ASCII
digits, base 10, 64-bit int range; anything else (empty string, stray
characters, out-of-range values) is an error, modelled as `none`. -/
def atoi (s : String) : Option Int :=
  match s.toList with
  | [] => none
  | '+' :: cs =>
    if cs.isEmpty then none
    else match parseDigits 0 cs with
      | some n => if (n : Int) ≤ int64Max then some (n : Int) else none
      | none => none
  | '-' :: cs =>
    if cs.isEmpty then none
    else match parseDigits 0 cs with
      | some n => if (n : Int) ≤ int64Max + 1 then some (-(n : Int)) else none
      | none => none
  | cs =>
    match parseDigits 0 cs with
    | some n => if (n : Int) ≤ int64Max then some (n : Int) else none
    | none => none

/-- State of the server's response writer `nrw` (src/server/main.go:77-87).
The Go struct's `index` field is declared but never read or written, so it
is omitted. The mutex is modelled by treating each locked region as one
atomic step. `subActive` models whether `asub` is a live subscription;
`acksInit` models `acks != nil` (the lazy first-write initialization). -/
structure Nrw where
  reply : String
  hdr : Option Msg
  inbox : String
  subActive : Bool
  acksInit : Bool
  pending : Int
deriving Repr, DecidableEq

/-- The writer natsHandleFunc constructs for each inbound request
(src/server/main.go:166): only nc and reply are set; hdr is nil,
pending is 0, no subscription or acks channel yet. -/
def mkNrw (reply : String) : Nrw :=
  { reply := reply, hdr := none, inbox := "", subActive := false,
    acksInit := false, pending := 0 }

/-- Flow-control window ceiling (src/server/main.go:96):
const defaultWindowSize = 32 * 1024 * 1024. -/
def defaultWindowSize : Int := 32 * 1024 * 1024

/-- The fallback wait bound in Write's select, in milliseconds
(src/server/main.go:130: time.After(time.Millisecond)). -/
def writeWaitTimeoutMillis : Nat := 1

/-- Split a character list at every '.', keeping empty fields, as Go
strings.Split does for the one-character separator the server uses:
Split("", ".") = [""], Split("a.", ".") = ["a", ""]. -/
def splitDot : List Char → List (List Char)
  | [] => [[]]
  | c :: cs =>
    if c = '.' then [] :: splitDot cs
    else match splitDot cs with
      | t :: ts => (c :: t) :: ts
      | [] => [[c]]

/-- Model of strings.Split(s, ".") (the separator the server passes at
src/server/main.go:100). -/
def goSplitDot (s : String) : List String :=
  (splitDot s.toList).map fun cs => String.mk cs

/-- Subject parsing done by processFlowAck (src/server/main.go:100-109):
split the subject on ".", require at least two tokens, and parse the last
token with strconv.Atoi. `none` models the two logged-and-ignored early
returns ("Bad ack subject"). -/
def ackSize (subject : String) : Option Int :=
  let tokens := goSplitDot subject
  if tokens.length < 2 then none
  else atoi (tokens.getLastD "")

/-- Result of delivering one ack message to processFlowAck: the updated
writer state, and how many signals the callback sent on the `acks`
notification gate. The Go callback (src/server/main.go:98-113) only
updates `pending` under the lock; it contains no send on `w.acks`, so
`gateSignals` is 0 on every path. -/
structure AckEffect where
  st : Nrw
  gateSignals : Nat
deriving Repr, DecidableEq

/-- Model of (w *nrw) processFlowAck (src/server/main.go:98-113): parse
the trailing decimal chunk size from the ack subject; malformed subjects
are logged and ignored; otherwise pending -= chunkSize under the lock. -/
def processFlowAck (w : Nrw) (subject : String) : AckEffect :=
  match ackSize subject with
  | none => ⟨w, 0⟩
  | some chunkSize => ⟨{ w with pending := w.pending - chunkSize }, 0⟩

/-- Reply subject attached to a published chunk
(src/server/main.go:134: fmt.Sprintf("%s.%d", w.inbox, len(data))). -/
def mkAckReply (inbox : String) (n : Nat) : String :=
  inbox ++ "." ++ toString n

/-- Go return value of Write: `.ok n` for (n, nil), `.error e` for (0, err). -/
inductive WriteRet
  | ok (n : Nat)
  | error (e : String)
deriving Repr, DecidableEq

/-- Result of one (w *nrw) Write call: final writer state, the Go return
value, the chunk messages actually published, whether the full-window
branch was taken, and — when it was — the bound on the wait (the select's
time.After fallback, in ms). -/
structure WriteEffect where
  st : Nrw
  ret : WriteRet
  published : List Msg
  waited : Bool
  waitBoundMs : Option Nat
deriving Repr, DecidableEq

/-- Model of (w *nrw) Write (src/server/main.go:115-140). External
nondeterminism is passed in: `freshInbox` is the value nats.NewInbox()
would return on the lazy first-write initialization, and `pubErr` is the
outcome of nc.PublishRequest (`none` = success). Control flow follows the
source: lazy init when acks == nil; if pending > defaultWindowSize, wait
on the acks gate bounded by the 1 ms timer, then proceed regardless;
publish data with reply "<inbox>.<len(data)>"; on publish error return
(0, err) leaving pending unchanged; on success pending += len(data) and
return (len(data), nil). -/
def nrwWrite (w : Nrw) (dat : List Nat) (freshInbox : String)
    (pubErr : Option String) : WriteEffect :=
  let w1 := if w.acksInit then w
            else { w with inbox := freshInbox, subActive := true, acksInit := true }
  let waited := defaultWindowSize < w1.pending
  let bound := if waited then some writeWaitTimeoutMillis else none
  let ackReply := mkAckReply w1.inbox dat.length
  match pubErr with
  | some e => ⟨w1, .error e, [], waited, bound⟩
  | none =>
    ⟨{ w1 with pending := w1.pending + dat.length }, .ok dat.length,
     [{ subject := w1.reply, reply := ackReply, header := [], data := dat }],
     waited, bound⟩

/-- Fresh header message, as nats.NewMsg(w.reply) in Header()
(src/server/main.go:91). -/
def newMsg (subject : String) : Msg :=
  { subject := subject, reply := "", header := [], data := [] }

/-- Model of (w *nrw) Header (src/server/main.go:89-94): lazily allocate
the header message on first touch; this is the only place `hdr` is set. -/
def nrwHeader (w : Nrw) : Nrw :=
  match w.hdr with
  | none => { w with hdr := some (newMsg w.reply) }
  | some _ => w

/-- Model of (w *nrw) WriteHeader (src/server/main.go:142-147): append a
"Status" header "<code> <text>" to w.hdr and publish w.hdr. The function
dereferences w.hdr unconditionally; `none` models the nil-pointer panic
that occurs when Header() was never called. `statusText` stands for the
external http.StatusText table. There is no once-guard in the source:
every call appends and publishes again. -/
def nrwWriteHeader (w : Nrw) (statusText : Nat → String) (code : Nat) :
    Option (Nrw × List Msg) :=
  match w.hdr with
  | none => none
  | some h =>
    let h1 := { h with
      header := h.header ++ [("Status", toString code ++ " " ++ statusText code)] }
    some ({ w with hdr := some h1 }, [h1])

/-- Teardown run by natsHandleFunc after the handler returns
(src/server/main.go:171-173): unsubscribe the ack subscription under the
lock. Nothing else in the writer changes; in particular no closed flag is
set and `Write` never consults `subActive`. -/
def handlerTeardown (w : Nrw) : Nrw :=
  { w with subActive := false }

/-- Ghost-augmented transfer state for the flow-control window invariant:
the writer state together with the sizes of the chunks published so far
and not yet acknowledged. -/
structure Transfer where
  w : Nrw
  outstanding : List Nat

/-- One atomic event on a transfer's window state. Because the mutex is
held across the publish and the pending update in Write, and across the
pending update in processFlowAck, each event is atomic. `write` is a
successful Write (publish plus pending += len(data)); `writeErr` is a
Write whose publish failed (pending unchanged); `ack` is the delivery of
an ack to processFlowAck for one outstanding chunk — the client only ever
acks a published chunk, by replying on that chunk's reply subject
mkAckReply, whose trailing token is the chunk's size. -/
inductive Step : Transfer → Transfer → Prop
  | write (t : Transfer) (dat : List Nat) (fr : String) :
      Step t ⟨(nrwWrite t.w dat fr none).st, dat.length :: t.outstanding⟩
  | writeErr (t : Transfer) (dat : List Nat) (fr e : String) :
      Step t ⟨(nrwWrite t.w dat fr (some e)).st, t.outstanding⟩
  | ack (t : Transfer) (subj : String) (pre post : List Nat) (n : Nat) :
      ackSize subj = some (n : Int) →
      t.outstanding = pre ++ n :: post →
      Step t ⟨(processFlowAck t.w subj).st, pre ++ post⟩

/-- Transfer states reachable from the writer natsHandleFunc creates
(pending 0, nothing outstanding) by any interleaving of Write calls and
ack deliveries. -/
inductive Reachable : Transfer → Prop
  | start (reply : String) : Reachable ⟨mkNrw reply, []⟩
  | step {t u : Transfer} : Reachable t → Step t u → Reachable u

theorem nrwWrite_pending_ok (w : Nrw) (dat : List Nat) (fr : String) :
    (nrwWrite w dat fr none).st.pending = w.pending + dat.length := by
  by_cases hb : w.acksInit <;> simp [nrwWrite, hb]

theorem nrwWrite_pending_err (w : Nrw) (dat : List Nat) (fr e : String) :
    (nrwWrite w dat fr (some e)).st.pending = w.pending := by
  by_cases hb : w.acksInit <;> simp [nrwWrite, hb]

theorem processFlowAck_pending (w : Nrw) (subj : String) (n : Int)
    (hp : ackSize subj = some n) :
    (processFlowAck w subj).st.pending = w.pending - n := by
  simp [processFlowAck, hp]

theorem pending_eq_outstanding_sum {t : Transfer} (h : Reachable t) :
    t.w.pending = (t.outstanding.sum : Int) := by
  induction h with
  | start reply => simp [mkNrw]
  | step _ hs ih =>
    cases hs with
    | write dat fr =>
      show (nrwWrite _ dat fr none).st.pending = _
      rw [nrwWrite_pending_ok, ih]
      simp [List.sum_cons]
      ring
    | writeErr dat fr e =>
      show (nrwWrite _ dat fr (some e)).st.pending = _
      rw [nrwWrite_pending_err, ih]
    | ack subj pre post n hp ho =>
      show (processFlowAck _ subj).st.pending = _
      rw [processFlowAck_pending _ _ _ hp, ih, ho]
      simp [List.sum_append, List.sum_cons]
      ring

/-- C1: for every interleaving of writer Write calls and processFlowAck
ack deliveries on one transfer's window state, the pending-bytes counter
is never negative. -/
theorem pending_never_negative {t : Transfer} (h : Reachable t) : 0 ≤ t.w.pending := by
  rw [pending_eq_outstanding_sum h]
  exact_mod_cast Nat.zero_le _

/-- Witness for C1 on a concrete trace: write a 3-byte chunk from the
fresh writer, then deliver its ack on subject "ib.3". -/
theorem pending_never_negative_witness :
    0 ≤ (Transfer.mk (processFlowAck (nrwWrite (mkNrw "r") [0, 0, 0] "ib" none).st "ib.3").st
          ([] ++ [])).w.pending :=
  pending_never_negative
    (Reachable.step
      (Reachable.step (Reachable.start "r") (Step.write ⟨mkNrw "r", []⟩ [0, 0, 0] "ib"))
      (Step.ack ⟨(nrwWrite (mkNrw "r") [0, 0, 0] "ib" none).st, [3]⟩ "ib.3" [] [] 3
        (by decide) rfl))

/-- C3: in the STREAMING state (acks gate initialised), Write takes the
bounded-wait branch exactly when pending exceeds the 32 MiB ceiling, and
that wait is bounded by the 1 ms fallback timer after which it proceeds
regardless; on publish success it publishes data with reply
"<inbox>.<len(data)>" and adds len(data) to pending; a publish error is
returned to the caller and pending is left unchanged. -/
theorem nrwWrite_streaming_behavior (w : Nrw) (dat : List Nat) (fr e : String)
    (hs : w.acksInit = true) :
    (nrwWrite w dat fr none).waited = decide (defaultWindowSize < w.pending)
    ∧ (nrwWrite w dat fr none).waitBoundMs =
        (if defaultWindowSize < w.pending then some writeWaitTimeoutMillis else none)
    ∧ (nrwWrite w dat fr none).ret = .ok dat.length
    ∧ (nrwWrite w dat fr none).st.pending = w.pending + dat.length
    ∧ (nrwWrite w dat fr none).published =
        [{ subject := w.reply, reply := mkAckReply w.inbox dat.length,
           header := [], data := dat }]
    ∧ (nrwWrite w dat fr (some e)).ret = .error e
    ∧ (nrwWrite w dat fr (some e)).st.pending = w.pending
    ∧ (nrwWrite w dat fr (some e)).published = [] := by
  simp [nrwWrite, hs, mkAckReply]

/-- Writer in the STREAMING state used by concrete instances. -/
def streamingWriter : Nrw :=
  { reply := "resp", hdr := none, inbox := "ib", subActive := true,
    acksInit := true, pending := 10 }

/-- Witness for C3 at a concrete streaming writer and 2-byte chunk. -/
theorem nrwWrite_streaming_behavior_witness :
    (nrwWrite streamingWriter [7, 8] "fresh" none).waited =
        decide (defaultWindowSize < streamingWriter.pending)
    ∧ (nrwWrite streamingWriter [7, 8] "fresh" none).waitBoundMs =
        (if defaultWindowSize < streamingWriter.pending then some writeWaitTimeoutMillis else none)
    ∧ (nrwWrite streamingWriter [7, 8] "fresh" none).ret = .ok ([7, 8] : List Nat).length
    ∧ (nrwWrite streamingWriter [7, 8] "fresh" none).st.pending =
        streamingWriter.pending + ([7, 8] : List Nat).length
    ∧ (nrwWrite streamingWriter [7, 8] "fresh" none).published =
        [{ subject := streamingWriter.reply,
           reply := mkAckReply streamingWriter.inbox ([7, 8] : List Nat).length,
           header := [], data := [7, 8] }]
    ∧ (nrwWrite streamingWriter [7, 8] "fresh" (some "pub failed")).ret = .error "pub failed"
    ∧ (nrwWrite streamingWriter [7, 8] "fresh" (some "pub failed")).st.pending =
        streamingWriter.pending
    ∧ (nrwWrite streamingWriter [7, 8] "fresh" (some "pub failed")).published = [] :=
  nrwWrite_streaming_behavior streamingWriter [7, 8] "fresh" "pub failed" rfl

/-- C4 (code bug): the processFlowAck callback never delivers a signal on
the acks notification gate — on every path it only updates pending — so a
Write blocked on a full window resumes only via the 1 ms fallback timer,
never on ack arrival. -/
theorem processFlowAck_never_signals_gate (w : Nrw) (subj : String) :
    (processFlowAck w subj).gateSignals = 0 := by
  cases h : ackSize subj <;> simp [processFlowAck, h]

/-- C5: processFlowAck on a subject whose last dot-separated token parses
as a decimal integer N subtracts N from pending; on a malformed subject
(fewer than two dot-separated tokens, or a last token Atoi rejects) it
returns with the writer state unchanged; in both cases it returns rather
than aborting the transfer. -/
theorem processFlowAck_subject_parsing (w : Nrw) (subj : String) (n : Int) :
    (2 ≤ (goSplitDot subj).length → atoi ((goSplitDot subj).getLastD "") = some n →
      processFlowAck w subj = ⟨{ w with pending := w.pending - n }, 0⟩)
    ∧ ((goSplitDot subj).length < 2 ∨ atoi ((goSplitDot subj).getLastD "") = none →
      processFlowAck w subj = ⟨w, 0⟩) := by
  constructor
  · intro h1 h2
    have hs : ackSize subj = some n := by
      unfold ackSize
      rw [if_neg (by omega)]
      exact h2
    simp [processFlowAck, hs]
  · intro h
    rcases h with h | h
    · have hs : ackSize subj = none := by
        unfold ackSize
        rw [if_pos h]
      simp [processFlowAck, hs]
    · by_cases h2 : (goSplitDot subj).length < 2
      · have hs : ackSize subj = none := by
          unfold ackSize
          rw [if_pos h2]
        simp [processFlowAck, hs]
      · have hs : ackSize subj = none := by
          unfold ackSize
          rw [if_neg h2]
          exact h
        simp [processFlowAck, hs]

/-- Witness for C5 at three concrete subjects: a well-formed ack "ib.5",
a subject with one token, and a subject with a non-numeric last token. -/
theorem processFlowAck_subject_parsing_witness :
    processFlowAck (mkNrw "r") "ib.5" = ⟨{ mkNrw "r" with pending := (mkNrw "r").pending - 5 }, 0⟩
    ∧ processFlowAck (mkNrw "r") "nodot" = ⟨mkNrw "r", 0⟩
    ∧ processFlowAck (mkNrw "r") "ib.xyz" = ⟨mkNrw "r", 0⟩ :=
  ⟨(processFlowAck_subject_parsing (mkNrw "r") "ib.5" 5).1 (by decide) (by decide),
   (processFlowAck_subject_parsing (mkNrw "r") "nodot" 0).2 (Or.inl (by decide)),
   (processFlowAck_subject_parsing (mkNrw "r") "ib.xyz" 0).2 (Or.inr (by decide))⟩

/-- Writer whose handler has touched Header(), so hdr is allocated. -/
def whWriter : Nrw := nrwHeader (mkNrw "resp")

/-- Sample stand-in for the external http.StatusText table. -/
def statusTextOK : Nat → String := fun c => if c = 200 then "OK" else ""

/-- First WriteHeader(200) call on whWriter. -/
def whFirst : Option (Nrw × List Msg) := nrwWriteHeader whWriter statusTextOK 200

/-- Second WriteHeader(200) call, on the state the first call left. -/
def whSecond : Option (Nrw × List Msg) :=
  match whFirst with
  | some (st1, _) => nrwWriteHeader st1 statusTextOK 200
  | none => none

/-- C6 counterexample: the second WriteHeader call is not ignored — it
publishes one more message, the header message now carries two Status
entries, and the writer state differs from the state after the first
call. -/
theorem writeHeader_second_call_publishes :
    (whSecond.map fun r => r.2.length) = some 1
    ∧ (whSecond.map fun r =>
        ((r.1.hdr.map fun h => (h.header.filter fun kv => kv.1 = "Status").length).getD 0))
      = some 2
    ∧ whSecond ≠ whFirst := by decide

/-- C6 amended: every WriteHeader call on a writer whose header message is
allocated — not only the first — appends a Status header "<code> <text>"
to the header message and publishes it; there is no once-guard, so each
subsequent call publishes the header message again. -/
theorem writeHeader_every_call_publishes (w : Nrw) (h : Msg) (f : Nat → String) (c : Nat)
    (hh : w.hdr = some h) :
    nrwWriteHeader w f c =
      some ({ w with hdr := some { h with
                header := h.header ++ [("Status", toString c ++ " " ++ f c)] } },
            [{ h with header := h.header ++ [("Status", toString c ++ " " ++ f c)] }]) := by
  simp [nrwWriteHeader, hh]

/-- Witness for C6's amended claim at the concrete writer whWriter. -/
theorem writeHeader_every_call_publishes_witness :
    nrwWriteHeader whWriter statusTextOK 200 =
      some ({ whWriter with hdr := some { newMsg "resp" with
                header := (newMsg "resp").header
                  ++ [("Status", toString 200 ++ " " ++ statusTextOK 200)] } },
            [{ newMsg "resp" with
                header := (newMsg "resp").header
                  ++ [("Status", toString 200 ++ " " ++ statusTextOK 200)] }]) :=
  writeHeader_every_call_publishes whWriter (newMsg "resp") statusTextOK 200 rfl

/-- C7 counterexample: after the handler returns and natsHandleFunc tears
the ack subscription down, a further Write still succeeds and publishes a
chunk — it does not fail with a closed-writer error. -/
theorem write_after_teardown_succeeds :
    (nrwWrite (handlerTeardown streamingWriter) [1, 2, 3] "fresh" none).ret = .ok 3
    ∧ (nrwWrite (handlerTeardown streamingWriter) [1, 2, 3] "fresh" none).published.length
      = 1 := by
  decide

/-- C7 amended: the teardown after the handler returns only unsubscribes
the ack subscription; Write consults no closed flag, so a Write after
teardown returns, publishes and updates pending exactly as before —
no closed-writer error exists in the code. -/
theorem write_ignores_teardown (w : Nrw) (dat : List Nat) (fr : String) (pe : Option String) :
    (nrwWrite (handlerTeardown w) dat fr pe).ret = (nrwWrite w dat fr pe).ret
    ∧ (nrwWrite (handlerTeardown w) dat fr pe).published = (nrwWrite w dat fr pe).published
    ∧ (nrwWrite (handlerTeardown w) dat fr pe).waited = (nrwWrite w dat fr pe).waited
    ∧ (nrwWrite (handlerTeardown w) dat fr pe).st.pending
      = (nrwWrite w dat fr pe).st.pending := by
  by_cases hb : w.acksInit <;> cases pe <;> simp [nrwWrite, handlerTeardown, hb]

/-- C10: on the writer natsHandleFunc constructs, calling WriteHeader
before Header() dereferences the nil header message and panics (modelled
as `none`); the panic happens exactly when hdr was never allocated,
Header() is what allocates it, and after Header() the same WriteHeader
call succeeds. -/
theorem writeHeader_nil_header_panics (reply : String) (f : Nat → String) (c : Nat) (w : Nrw) :
    nrwWriteHeader (mkNrw reply) f c = none
    ∧ (nrwWriteHeader w f c = none ↔ w.hdr = none)
    ∧ (nrwHeader (mkNrw reply)).hdr = some (newMsg reply)
    ∧ (nrwWriteHeader (nrwHeader (mkNrw reply)) f c).isSome = true := by
  refine ⟨rfl, ?_, rfl, rfl⟩
  cases h : w.hdr <;> simp [nrwWriteHeader, h]

/-! Client side: src/client/main.go. -/

/-- The Unicode replacement character U+FFFD, which Go's range-over-string
loop yields once for each leading byte of an invalid or truncated UTF-8
sequence. -/
def runeError : Nat := 0xFFFD

/-- Lower bound Go's UTF-8 decoder accepts for the second byte of a
multi-byte sequence, given the first byte (utf8.acceptRanges). -/
def utf8SecondLo (b0 : Nat) : Nat :=
  if b0 = 0xE0 then 0xA0 else if b0 = 0xF0 then 0x90 else 0x80

/-- Upper bound Go's UTF-8 decoder accepts for the second byte of a
multi-byte sequence, given the first byte (utf8.acceptRanges). -/
def utf8SecondHi (b0 : Nat) : Nat :=
  if b0 = 0xED then 0x9F else if b0 = 0xF4 then 0x8F else 0xBF

/-- Decode one rune from byte b0 followed by rest, as Go
utf8.DecodeRuneInString does: returns the rune and how many bytes of
`rest` (beyond b0) it consumed. An invalid or truncated sequence yields
(runeError, 0), i.e. the loop advances one byte. -/
def utf8DecodeFirst (b0 : Nat) (rest : List Nat) : Nat × Nat :=
  if b0 < 0x80 then (b0, 0)
  else if b0 < 0xC2 then (runeError, 0)
  else if b0 ≤ 0xDF then
    match rest with
    | b1 :: _ =>
      if utf8SecondLo b0 ≤ b1 ∧ b1 ≤ utf8SecondHi b0 then
        ((b0 % 0x20) * 0x40 + b1 % 0x40, 1)
      else (runeError, 0)
    | _ => (runeError, 0)
  else if b0 ≤ 0xEF then
    match rest with
    | b1 :: b2 :: _ =>
      if utf8SecondLo b0 ≤ b1 ∧ b1 ≤ utf8SecondHi b0 ∧ 0x80 ≤ b2 ∧ b2 ≤ 0xBF then
        ((b0 % 0x10) * 0x1000 + (b1 % 0x40) * 0x40 + b2 % 0x40, 2)
      else (runeError, 0)
    | _ => (runeError, 0)
  else if b0 ≤ 0xF4 then
    match rest with
    | b1 :: b2 :: b3 :: _ =>
      if utf8SecondLo b0 ≤ b1 ∧ b1 ≤ utf8SecondHi b0 ∧ 0x80 ≤ b2 ∧ b2 ≤ 0xBF
          ∧ 0x80 ≤ b3 ∧ b3 ≤ 0xBF then
        ((b0 % 0x8) * 0x40000 + (b1 % 0x40) * 0x1000 + (b2 % 0x40) * 0x40 + b3 % 0x40, 3)
      else (runeError, 0)
    | _ => (runeError, 0)
  else (runeError, 0)

/-- Fuel-driven decoding loop: each step consumes at least one byte, so
fuel equal to the list length always suffices; the explicit fuel keeps
the recursion structural. -/
def utf8DecodeFuel : Nat → List Nat → List Nat
  | _, [] => []
  | 0, _ :: _ => []
  | fuel + 1, b0 :: rest =>
    let p := utf8DecodeFirst b0 rest
    p.1 :: utf8DecodeFuel fuel (rest.drop p.2)

/-- Decode a byte sequence into the sequence of runes Go's
range-over-string loop visits. -/
def utf8Decode (l : List Nat) : List Nat := utf8DecodeFuel l.length l

/-- Sample bound of the classifier (src/client/main.go:136:
const snippetSize = 32). -/
def snippetSize : Nat := 32

/-- Model of isPrintable (src/client/main.go:135-147): truncate the
payload to its first snippetSize bytes, decode them as UTF-8 the way
Go's range-over-string loop does, and require every decoded rune to
satisfy the printable predicate. `isPrint` stands for the external
unicode.IsPrint table (control and format code points are not
printable). -/
def isPrintable (isPrint : Nat → Bool) (data : List Nat) : Bool :=
  (utf8Decode (data.take snippetSize)).all isPrint

/-- C2: the classifier returns true iff every code point decoded from the
first 32 bytes of the payload is printable, and its result depends only
on those bytes — it is unchanged by truncating the payload there, so it
is independent of the total payload size beyond them. -/
theorem isPrintable_first32_iff (p : Nat → Bool) (data : List Nat) :
    (isPrintable p data = true ↔ ∀ r ∈ utf8Decode (data.take snippetSize), p r = true)
    ∧ isPrintable p data = isPrintable p (data.take snippetSize) := by
  constructor
  · simp [isPrintable, List.all_eq_true]
  · simp [isPrintable, List.take_take]

/-- Simple concrete printable predicate (printable ASCII), standing in
for unicode.IsPrint when instantiating concrete runs. -/
def asciiPrint : Nat → Bool := fun r => decide (32 ≤ r ∧ r < 127)

/-- One NextMsg outcome fed to the client body loop: either sub.NextMsg
failed (transport error or the 2 s timeout), or it returned a message
with the given payload bytes. -/
inductive ChunkIn
  | err
  | msg (data : List Nat)
deriving Repr, DecidableEq

/-- How the client body loop ended: `complete` when the received-byte
total reached Content-Length (the normal for-condition exit), `short`
when a receive failed or an empty chunk arrived (the break — a graceful
end, not an error), `binaryFatal` when the first-chunk classifier
rejected binary data with no output file (log.Fatalf). -/
inductive ExitReason
  | complete
  | short
  | binaryFatal
deriving Repr, DecidableEq

/-- Outcome of the client body loop: the received-byte total, how the
loop ended, and how many NextMsg outcomes it consumed. -/
structure LoopOut where
  received : Int
  exit : ExitReason
  consumed : Nat
deriving Repr, DecidableEq

/-- Model of the client receive loop (src/client/main.go:113-132):
for received, checked := 0, false; received < cl; received += len(msg.Data).
`fileOut` is whether -output was given (fd != nil); `p` stands for
unicode.IsPrint inside the classifier. The stream lists successive
NextMsg outcomes; an exhausted list behaves like a receive timeout. Each
consumed chunk is written and then acknowledged; the ack does not alter
loop state, so it is not recorded. -/
def clientLoop (p : Nat → Bool) (cl : Int) (fileOut : Bool) :
    List ChunkIn → Int → Bool → LoopOut
  | stream, received, checked =>
    if cl ≤ received then ⟨received, .complete, 0⟩
    else
      match stream with
      | [] => ⟨received, .short, 0⟩
      | .err :: _ => ⟨received, .short, 1⟩
      | .msg d :: rest =>
        if d.length = 0 then ⟨received, .short, 1⟩
        else if !checked && !fileOut && !isPrintable p d then ⟨received, .binaryFatal, 1⟩
        else
          let out := clientLoop p cl fileOut rest (received + d.length) (checked || !fileOut)
          ⟨out.received, out.exit, out.consumed + 1⟩

/-- Byte length one loop iteration adds for a NextMsg outcome. -/
def chunkLen : ChunkIn → Nat
  | .err => 0
  | .msg d => d.length

/-- Total byte length of a list of NextMsg outcomes. -/
def sumLen (l : List ChunkIn) : Int := ((l.map chunkLen).sum : Nat)

/-- A NextMsg outcome the loop consumes and keeps going on: a non-empty
chunk that cannot trip the binary check (an output file is configured,
or the chunk is printable). -/
def goodChunk (p : Nat → Bool) (fileOut : Bool) : ChunkIn → Bool
  | .err => false
  | .msg d => !d.isEmpty && (fileOut || isPrintable p d)

theorem sumLen_nil : sumLen [] = 0 := rfl

theorem sumLen_cons (c : ChunkIn) (l : List ChunkIn) :
    sumLen (c :: l) = chunkLen c + sumLen l := by
  simp [sumLen]

theorem sumLen_nonneg (l : List ChunkIn) : 0 ≤ sumLen l :=
  Int.natCast_nonneg _

theorem clientLoop_cons_good (p : Nat → Bool) (cl : Int) (fb : Bool) (d : List Nat)
    (rest : List ChunkIn) (received : Int) (checked : Bool)
    (hr : ¬ cl ≤ received) (hg : goodChunk p fb (.msg d) = true) :
    clientLoop p cl fb (.msg d :: rest) received checked =
      ⟨(clientLoop p cl fb rest (received + d.length) (checked || !fb)).received,
       (clientLoop p cl fb rest (received + d.length) (checked || !fb)).exit,
       (clientLoop p cl fb rest (received + d.length) (checked || !fb)).consumed + 1⟩ := by
  simp only [goodChunk, Bool.and_eq_true, Bool.not_eq_eq_eq_not, Bool.not_true,
    Bool.or_eq_true] at hg
  obtain ⟨hd, hcheck⟩ := hg
  have hd0 : ¬ d.length = 0 := by
    simpa [List.isEmpty_iff, List.length_eq_zero] using hd
  have hbin : (!checked && !fb && !isPrintable p d) = false := by
    rcases hcheck with h | h <;> simp [h]
  rw [clientLoop, if_neg hr]
  simp only [hbin, Bool.false_eq_true, if_false, hd0, if_neg hd0]

theorem clientLoop_short_aux (p : Nat → Bool) (cl : Int) (fb : Bool) :
    ∀ (good : List ChunkIn) (c : ChunkIn) (rest : List ChunkIn) (received : Int)
      (checked : Bool),
      (∀ x ∈ good, goodChunk p fb x = true) →
      (c = .err ∨ c = .msg []) →
      received + sumLen good < cl →
      clientLoop p cl fb (good ++ c :: rest) received checked =
        ⟨received + sumLen good, .short, good.length + 1⟩ := by
  intro good
  induction good with
  | nil =>
    intro c rest received checked _ hc hlt
    rw [sumLen_nil] at hlt ⊢
    have hr : ¬ cl ≤ received := by omega
    rcases hc with h | h <;> subst h <;>
      simp [clientLoop, if_neg hr]
  | cons g gs ih =>
    intro c rest received checked hgood hc hlt
    have hg : goodChunk p fb g = true := hgood g (by simp)
    obtain ⟨d, rfl⟩ : ∃ d, g = .msg d := by
      cases g with
      | err => simp [goodChunk] at hg
      | msg d => exact ⟨d, rfl⟩
    rw [sumLen_cons] at hlt
    have h0 : 0 ≤ sumLen gs := sumLen_nonneg gs
    have hr : ¬ cl ≤ received := by
      simp [chunkLen] at hlt
      omega
    rw [List.cons_append, clientLoop_cons_good p cl fb d (gs ++ c :: rest) received checked hr hg]
    rw [ih c rest (received + d.length) (checked || !fb)
      (fun x hx => hgood x (by simp [hx])) hc (by simp [chunkLen] at hlt ⊢; omega)]
    simp [sumLen_cons, chunkLen]
    ring

theorem clientLoop_complete_aux (p : Nat → Bool) (cl : Int) (fb : Bool) :
    ∀ (stream : List ChunkIn) (m : Nat) (received : Int) (checked : Bool),
      (∀ x ∈ stream.take m, goodChunk p fb x = true) →
      cl ≤ received + sumLen (stream.take m) →
      ∃ k, k ≤ m
        ∧ (clientLoop p cl fb stream received checked).received
            = received + sumLen (stream.take k)
        ∧ (clientLoop p cl fb stream received checked).exit = .complete
        ∧ (clientLoop p cl fb stream received checked).consumed = k
        ∧ cl ≤ received + sumLen (stream.take k)
        ∧ ∀ j < k, received + sumLen (stream.take j) < cl := by
  intro stream
  induction stream with
  | nil =>
    intro m received checked _ hsum
    rw [List.take_nil, sumLen_nil] at hsum
    refine ⟨0, Nat.zero_le _, ?_⟩
    rw [clientLoop, if_pos (by omega)]
    simp [sumLen_nil]
    omega
  | cons g gs ih =>
    intro m received checked hgood hsum
    by_cases hr : cl ≤ received
    · refine ⟨0, Nat.zero_le _, ?_⟩
      rw [clientLoop.eq_def]
      dsimp only
      rw [if_pos hr]
      simp [sumLen_nil, hr]
    · match m with
      | 0 =>
        rw [List.take_zero, sumLen_nil] at hsum
        omega
      | Nat.succ m' =>
        rw [List.take_succ_cons] at hgood hsum
        have hg : goodChunk p fb g = true := hgood g (by simp)
        obtain ⟨d, rfl⟩ : ∃ d, g = .msg d := by
          cases g with
          | err => simp [goodChunk] at hg
          | msg d => exact ⟨d, rfl⟩
        rw [sumLen_cons] at hsum
        obtain ⟨k', hk'le, h1, h2, h3, h4, h5⟩ :=
          ih m' (received + d.length) (checked || !fb)
            (fun x hx => hgood x (by simp [hx]))
            (by simp [chunkLen] at hsum ⊢; omega)
        refine ⟨k' + 1, by omega, ?_, ?_, ?_, ?_, ?_⟩
        · rw [clientLoop_cons_good p cl fb d gs received checked hr hg]
          rw [List.take_succ_cons, sumLen_cons]
          simp [chunkLen, h1]
          ring
        · rw [clientLoop_cons_good p cl fb d gs received checked hr hg]
          exact h2
        · rw [clientLoop_cons_good p cl fb d gs received checked hr hg]
          simp [h3]
        · rw [List.take_succ_cons, sumLen_cons]
          simp [chunkLen] at h4 ⊢
          omega
        · intro j hj
          match j with
          | 0 =>
            rw [List.take_zero, sumLen_nil]
            omega
          | Nat.succ j' =>
            rw [List.take_succ_cons, sumLen_cons]
            have := h5 j' (by omega)
            simp [chunkLen] at this ⊢
            omega

/-- C9: body-loop termination. If a receive failure/timeout or an empty
chunk arrives after a sequence of consumable chunks whose total is still
below Content-Length, the loop ends gracefully (exit `short`, not an
error), keeps the bytes received so far, and consumes nothing after the
terminating event (no retry). Otherwise — when the consumable chunks
reach Content-Length — it stops exactly at the first chunk whose
cumulative total reaches Content-Length. -/
theorem client_body_termination (p : Nat → Bool) (cl : Int) (fb : Bool)
    (good rest stream : List ChunkIn) (c : ChunkIn) (m : Nat) :
    ((∀ x ∈ good, goodChunk p fb x = true) → (c = .err ∨ c = .msg []) →
      sumLen good < cl →
      clientLoop p cl fb (good ++ c :: rest) 0 false =
        ⟨sumLen good, .short, good.length + 1⟩)
    ∧ ((∀ x ∈ stream.take m, goodChunk p fb x = true) → cl ≤ sumLen (stream.take m) →
      ∃ k, k ≤ m
        ∧ (clientLoop p cl fb stream 0 false).received = sumLen (stream.take k)
        ∧ (clientLoop p cl fb stream 0 false).exit = .complete
        ∧ (clientLoop p cl fb stream 0 false).consumed = k
        ∧ cl ≤ sumLen (stream.take k)
        ∧ ∀ j < k, sumLen (stream.take j) < cl) := by
  constructor
  · intro hg hc hl
    have := clientLoop_short_aux p cl fb good c rest 0 false hg hc (by simpa using hl)
    simpa using this
  · intro hg hs
    have := clientLoop_complete_aux p cl fb stream m 0 false hg (by simpa using hs)
    simpa using this

/-- Witness for C9: a 2-byte chunk then a receive failure under
Content-Length 5 ends short at 2 bytes; two chunks totalling 5 bytes
under Content-Length 3 complete at the second chunk. -/
theorem client_body_termination_witness :
    clientLoop asciiPrint 5 false ([ChunkIn.msg [104, 105]] ++ ChunkIn.err :: []) 0 false =
      ⟨sumLen [ChunkIn.msg [104, 105]], .short, [ChunkIn.msg [104, 105]].length + 1⟩
    ∧ ∃ k, k ≤ 2
      ∧ (clientLoop asciiPrint 3 false
          [ChunkIn.msg [104, 105], ChunkIn.msg [104, 105, 106]] 0 false).received
        = sumLen ([ChunkIn.msg [104, 105], ChunkIn.msg [104, 105, 106]].take k)
      ∧ (clientLoop asciiPrint 3 false
          [ChunkIn.msg [104, 105], ChunkIn.msg [104, 105, 106]] 0 false).exit = .complete
      ∧ (clientLoop asciiPrint 3 false
          [ChunkIn.msg [104, 105], ChunkIn.msg [104, 105, 106]] 0 false).consumed = k
      ∧ (3 : Int) ≤ sumLen ([ChunkIn.msg [104, 105], ChunkIn.msg [104, 105, 106]].take k)
      ∧ ∀ j < k, sumLen ([ChunkIn.msg [104, 105], ChunkIn.msg [104, 105, 106]].take j) < 3 :=
  ⟨(client_body_termination asciiPrint 5 false [ChunkIn.msg [104, 105]] []
      [] ChunkIn.err 0).1 (by decide) (Or.inl rfl) (by decide),
   (client_body_termination asciiPrint 3 false [] []
      [ChunkIn.msg [104, 105], ChunkIn.msg [104, 105, 106]] ChunkIn.err 2).2
      (by decide) (by decide)⟩

/-- Model of strings.HasPrefix(status, "200") (src/client/main.go:89).
Compared at the level of decoded characters; for the all-ASCII literal
"200" this agrees with Go's byte-level comparison. -/
def statusHas200 (status : String) : Bool :=
  List.isPrefixOf "200".toList status.toList

/-- Fatal client errors before or during the body loop. `badStatus`
models log.Fatalf("Error retrieving resource %q", status) — the message
embeds the literal status text; `badContentLength` models
log.Fatalf("Expected a Content-Length"); `binaryData` models the
classifier refusal. -/
inductive ClientErr
  | badStatus (status : String)
  | badContentLength
  | binaryData
deriving Repr, DecidableEq

/-- The log.Fatalf message for each fatal error (src/client/main.go:90,
96, 121). The %q verb is modelled as plain double-quoting (Go's escaping
of unusual runes inside the quoted text is not modelled). -/
def clientErrMessage : ClientErr → String
  | .badStatus status => "Error retrieving resource \"" ++ status ++ "\""
  | .badContentLength => "Expected a Content-Length"
  | .binaryData => "Warning, data received is binary, consider using -output FILE"

/-- Outcome of one client request from the header reply on. -/
structure ClientOutcome where
  fatalErr : Option ClientErr
  received : Int
  bodyConsumed : Nat
deriving Repr, DecidableEq

/-- Model of the client main flow once the first reply message has
arrived (src/client/main.go:88-133): require the Status header to start
with "200" (Fatalf with the status text otherwise), parse Content-Length
with strconv.Atoi (Fatalf if missing — Header.Get yields "" — or
non-numeric), then run the body receive loop. -/
def clientRun (p : Nat → Bool) (fileOut : Bool) (status clHeader : String)
    (stream : List ChunkIn) : ClientOutcome :=
  if statusHas200 status = false then ⟨some (.badStatus status), 0, 0⟩
  else
    match atoi clHeader with
    | none => ⟨some .badContentLength, 0, 0⟩
    | some cl =>
      let out := clientLoop p cl fileOut stream 0 false
      ⟨if out.exit = .binaryFatal then some .binaryData else none,
       out.received, out.consumed⟩

/-- C8: a header reply whose Status does not start with "200" makes the
client fail at once with the error carrying the literal status text
(embedded verbatim in the Fatalf message), consuming no body chunks; a
"200" Status whose Content-Length is missing or non-numeric also fails
before any body is consumed. -/
theorem client_header_validation (p : Nat → Bool) (fb : Bool) (status clh : String)
    (stream : List ChunkIn) :
    (statusHas200 status = false →
      clientRun p fb status clh stream = ⟨some (.badStatus status), 0, 0⟩
      ∧ ∃ pre post, clientErrMessage (.badStatus status) = pre ++ status ++ post)
    ∧ (statusHas200 status = true → atoi clh = none →
      clientRun p fb status clh stream = ⟨some .badContentLength, 0, 0⟩) := by
  constructor
  · intro h
    refine ⟨by simp [clientRun, h], "Error retrieving resource \"", "\"", rfl⟩
  · intro h hcl
    simp [clientRun, h, hcl]

/-- Witness for C8 at the concrete statuses "404 Not Found" (scenario B)
and "200 OK" with non-numeric Content-Length "abc". -/
theorem client_header_validation_witness :
    (clientRun asciiPrint false "404 Not Found" "11" [ChunkIn.msg [104]] =
        ⟨some (.badStatus "404 Not Found"), 0, 0⟩
      ∧ ∃ pre post,
          clientErrMessage (.badStatus "404 Not Found") = pre ++ "404 Not Found" ++ post)
    ∧ clientRun asciiPrint false "200 OK" "abc" [ChunkIn.msg [104]] =
        ⟨some .badContentLength, 0, 0⟩ :=
  ⟨(client_header_validation asciiPrint false "404 Not Found" "11"
      [ChunkIn.msg [104]]).1 (by decide),
   (client_header_validation asciiPrint false "200 OK" "abc"
      [ChunkIn.msg [104]]).2 (by decide) (by decide)⟩

end NatsFs
